import Mathlib

/-!
# Internet radio player: verification of the specified behavior

Shallow embedding of the core logic of the internet-radio-player repository:

* the client-side search filter with diacritic-insensitive normalization
  (`normalizeText` / `filteredStations` in the radio-player component),
* the client-side pagination of the displayed list (`displayedStations` / `hasMore`),
* the playback controller (`playStation` / `stopPlaying`),
* the stations API route (`getRadioBrowserServers`, `fetchRadioBrowserStations`,
  the `GET` handler),
* the local store (`addStation`, `toggleFavorite` in `lib/db.ts`).

JavaScript string primitives used by the code (`trim`, `toLowerCase`,
`split(/\s+/)`, `includes`, `normalize('NFD')` followed by stripping combining
marks, `parseInt`) are modelled as executable Lean functions on `List Char`.
-/

namespace RadioApp

/-- Models the JavaScript whitespace class as used by `trim` and `split(/\s+/)`
on the character set the app encounters (space, tab, line feed, carriage return). -/
def isWS (c : Char) : Bool :=
  c = ' ' || c = '\t' || c = '\n' || c = '\r'

/-- Models `String.prototype.trim`: strip whitespace from both ends. -/
def jsTrim (l : List Char) : List Char :=
  ((l.dropWhile isWS).reverse.dropWhile isWS).reverse

/-- Models `str.split(/\s+/)`: split at maximal whitespace runs; a leading or
trailing run produces an empty element, and the empty string yields `[""]`. -/
def splitWS : List Char → List (List Char)
  | [] => [[]]
  | c :: rest =>
    if isWS c then
      match rest with
      | [] => [[], []]
      | d :: _ => if isWS d then splitWS rest else [] :: splitWS rest
    else
      match splitWS rest with
      | g :: gs => (c :: g) :: gs
      | [] => [[c]]

/-- Combining mark with the given code point. -/
def cm (n : Nat) : Char := Char.ofNat n

/-- Models Unicode NFD decomposition (`str.normalize('NFD')`) on the Latin-1
precomposed letters; characters outside the table decompose to themselves. -/
def nfdChar (c : Char) : List Char :=
  match c with
  | 'à' => ['a', cm 0x300] | 'á' => ['a', cm 0x301] | 'â' => ['a', cm 0x302]
  | 'ã' => ['a', cm 0x303] | 'ä' => ['a', cm 0x308] | 'å' => ['a', cm 0x30A]
  | 'è' => ['e', cm 0x300] | 'é' => ['e', cm 0x301] | 'ê' => ['e', cm 0x302]
  | 'ë' => ['e', cm 0x308]
  | 'ì' => ['i', cm 0x300] | 'í' => ['i', cm 0x301] | 'î' => ['i', cm 0x302]
  | 'ï' => ['i', cm 0x308]
  | 'ò' => ['o', cm 0x300] | 'ó' => ['o', cm 0x301] | 'ô' => ['o', cm 0x302]
  | 'õ' => ['o', cm 0x303] | 'ö' => ['o', cm 0x308]
  | 'ù' => ['u', cm 0x300] | 'ú' => ['u', cm 0x301] | 'û' => ['u', cm 0x302]
  | 'ü' => ['u', cm 0x308]
  | 'ý' => ['y', cm 0x301] | 'ÿ' => ['y', cm 0x308]
  | 'ñ' => ['n', cm 0x303] | 'ç' => ['c', cm 0x327]
  | 'À' => ['A', cm 0x300] | 'Á' => ['A', cm 0x301] | 'Â' => ['A', cm 0x302]
  | 'Ã' => ['A', cm 0x303] | 'Ä' => ['A', cm 0x308] | 'Å' => ['A', cm 0x30A]
  | 'È' => ['E', cm 0x300] | 'É' => ['E', cm 0x301] | 'Ê' => ['E', cm 0x302]
  | 'Ë' => ['E', cm 0x308]
  | 'Ì' => ['I', cm 0x300] | 'Í' => ['I', cm 0x301] | 'Î' => ['I', cm 0x302]
  | 'Ï' => ['I', cm 0x308]
  | 'Ò' => ['O', cm 0x300] | 'Ó' => ['O', cm 0x301] | 'Ô' => ['O', cm 0x302]
  | 'Õ' => ['O', cm 0x303] | 'Ö' => ['O', cm 0x308]
  | 'Ù' => ['U', cm 0x300] | 'Ú' => ['U', cm 0x301] | 'Û' => ['U', cm 0x302]
  | 'Ü' => ['U', cm 0x308]
  | 'Ý' => ['Y', cm 0x301]
  | 'Ñ' => ['N', cm 0x303] | 'Ç' => ['C', cm 0x327]
  | c => [c]

/-- The combining-mark range `[̀-ͯ]` removed by the `replace` call. -/
def isCombiningMark (c : Char) : Bool :=
  0x300 ≤ c.val.toNat && c.val.toNat ≤ 0x36F

/-- Models `String.prototype.toLowerCase` on ASCII and the Latin-1 uppercase
letters (the only characters the pipeline can still hold after NFD stripping). -/
def jsToLower (c : Char) : Char :=
  if 'A' ≤ c && c ≤ 'Z' then Char.ofNat (c.val.toNat + 32)
  else if 0xC0 ≤ c.val.toNat && c.val.toNat ≤ 0xDE && c.val.toNat ≠ 0xD7 then
    Char.ofNat (c.val.toNat + 32)
  else c

/-- Embeds `normalizeText` from the radio-player component:
`text.normalize('NFD').replace(/[̀-ͯ]/g, '').toLowerCase().trim()`. -/
def normalizeText (text : List Char) : List Char :=
  jsTrim ((((text.flatMap nfdChar).filter (fun c => !isCombiningMark c)).map jsToLower))

/-- Whether `needle` is a prefix of `hay` (helper for `isSubstr`). -/
def isPrefixList : List Char → List Char → Bool
  | [], _ => true
  | _ :: _, [] => false
  | a :: as, b :: bs => a = b && isPrefixList as bs

/-- Models `String.prototype.includes`: `needle` occurs contiguously in `hay`. -/
def isSubstr (needle : List Char) : List Char → Bool
  | [] => isPrefixList needle []
  | c :: t => isPrefixList needle (c :: t) || isSubstr needle t

/-- The `RadioStation` shape of the radio-player component
(`id`, `name`, `url`, optional `favicon` and `tags`). -/
structure RadioStation where
  id : String
  name : String
  url : String
  favicon : Option String := none
  tags : Option String := none
deriving DecidableEq, Repr

/-- Embeds `STATIONS_PER_PAGE` from the radio-player component. -/
def STATIONS_PER_PAGE : Nat := 24

/-- The per-station predicate inside `filteredStations`: every search term is a
substring of the normalized name or of the normalized tags. -/
def stationMatches (searchTerms : List (List Char)) (station : RadioStation) : Bool :=
  let normalizedName := normalizeText station.name.data
  let normalizedTags :=
    match station.tags with
    | some t => normalizeText t.data
    | none => []
  searchTerms.all fun term =>
    isSubstr term normalizedName || isSubstr term normalizedTags

/-- Embeds `filteredStations` from the radio-player component: empty committed query
returns all stations; otherwise the normalized query is split on whitespace and
stations matching every term (in name or tags) are kept. -/
def filteredStations (allStations : List RadioStation)
    (debouncedSearchQuery : String) : List RadioStation :=
  if debouncedSearchQuery = "" then allStations
  else
    let searchTerms := splitWS (normalizeText debouncedSearchQuery.data)
    allStations.filter (stationMatches searchTerms)

/-- Embeds `displayedStations` as computed by the component effect: while a search is
active show the whole filtered list; otherwise slice the first
`currentPage * STATIONS_PER_PAGE` entries. -/
def displayedStations (allStations : List RadioStation)
    (debouncedSearchQuery : String) (currentPage : Nat) : List RadioStation :=
  if debouncedSearchQuery ≠ "" then filteredStations allStations debouncedSearchQuery
  else (filteredStations allStations debouncedSearchQuery).take
    (currentPage * STATIONS_PER_PAGE)

/-- Embeds `hasMore` from the radio-player component:
`!debouncedSearchQuery && currentPage * STATIONS_PER_PAGE < filteredStations.length`. -/
def hasMore (allStations : List RadioStation)
    (debouncedSearchQuery : String) (currentPage : Nat) : Bool :=
  debouncedSearchQuery = "" &&
    decide (currentPage * STATIONS_PER_PAGE <
      (filteredStations allStations debouncedSearchQuery).length)

example : normalizeText "Café".data = "cafe".data := by decide
example : normalizeText "  CAFÉ  ".data = "cafe".data := by decide
example : splitWS "rock london".data = ["rock".data, "london".data] := by decide
example : isSubstr "jazz".data "smooth jazz fm".data = true := by decide

/-! ## Playback controller (`playStation` / `stopPlaying`) -/

/-- State of the playback controller. `player` is the stored `Howl` handle
(which may already be unloaded); `activeSessions` tracks the audio sessions
that have been created and not yet unloaded; `nextSession` is a fresh handle
supply for `new Howl(...)`. -/
structure PlayerState where
  player : Option Nat := none
  currentStation : Option RadioStation := none
  errorMsg : Option String := none
  nextSession : Nat := 0
  activeSessions : List Nat := []
deriving DecidableEq, Repr

/-- The observable steps of one `playStation` / `stopPlaying` call, in program
order: unloading the previous `Howl`, the awaited click-report fetch (with its
outcome), and creating-and-playing the new `Howl`. -/
inductive PlayEvent where
  | unloadSession (sess : Nat)
  | awaitClickReport (stationId : String) (ok : Bool)
  | startSession (sess : Nat) (url : String)
deriving DecidableEq, Repr

/-- Embeds `stopPlaying`: if a player handle is stored, unload it and clear the
now-playing station; otherwise do nothing. (The handle itself stays stored.) -/
def stopPlaying (s : PlayerState) : PlayerState × List PlayEvent :=
  match s.player with
  | some p =>
    ({ s with activeSessions := s.activeSessions.filter (fun x => x ≠ p),
              currentStation := none }, [.unloadSession p])
  | none => (s, [])

/-- Embeds `playStation station`: toggle-to-stop when the station is already the
now-playing one; otherwise unload any stored player, `await` the click-report
fetch (outcome `clickOk`, failures swallowed by the `try/catch`), then create a
new `Howl` for the station's URL and play it. `loadOk` selects which of the
`onplay` / `onloaderror` callbacks fires. -/
def playStation (s : PlayerState) (station : RadioStation)
    (clickOk : Bool) (loadOk : Bool) : PlayerState × List PlayEvent :=
  if s.currentStation.map RadioStation.id = some station.id then
    stopPlaying s
  else
    let s1 : PlayerState :=
      match s.player with
      | some p => { s with activeSessions := s.activeSessions.filter (fun x => x ≠ p) }
      | none => s
    let ev1 : List PlayEvent :=
      match s.player with
      | some p => [.unloadSession p]
      | none => []
    let n := s1.nextSession
    let s2 : PlayerState :=
      { s1 with
        activeSessions := s1.activeSessions ++ [n]
        nextSession := n + 1
        player := some n
        currentStation := if loadOk then some station else none
        errorMsg :=
          if loadOk then s1.errorMsg
          else some ("Failed to load station: " ++ station.name) }
    (s2, ev1 ++ [.awaitClickReport station.id clickOk] ++ [.startSession n station.url])

/-- Reachability invariant of the controller: a now-playing station implies a
stored player handle, and the stored handle is the only session that can still
be active (at most one active session). -/
def PlayerInv (s : PlayerState) : Prop :=
  (s.currentStation.isSome → s.player.isSome) ∧
  (match s.player with
   | some p => s.activeSessions = [] ∨ s.activeSessions = [p]
   | none => s.activeSessions = [])

/-- The initial component state. -/
def initPlayerState : PlayerState := {}

/-- Whether an awaited click report occurs strictly before a session start in
an event trace (i.e. the playback start is sequenced after the click report). -/
def clickAwaitedBeforeStart : List PlayEvent → Bool
  | [] => false
  | .awaitClickReport _ _ :: rest =>
    (rest.any fun e => match e with | .startSession _ _ => true | _ => false) ||
      clickAwaitedBeforeStart rest
  | _ :: rest => clickAwaitedBeforeStart rest

/-! ## Local store (`lib/db.ts`: `addStation`, `toggleFavorite`) -/

/-- A row of the `stations` table (surrogate `id` is `AUTOINCREMENT`). -/
structure StationRow where
  id : Nat
  name : String
  url : String
  favicon : Option String
  tags : Option String
deriving DecidableEq, Repr

/-- A row of the `favorites` table. -/
structure FavoriteRow where
  id : Nat
  station_id : Int
deriving DecidableEq, Repr

/-- The local SQLite store: both tables in insertion order plus the
autoincrement counters. -/
structure DbState where
  stations : List StationRow := []
  favorites : List FavoriteRow := []
  nextStationId : Nat := 1
  nextFavoriteId : Nat := 1
deriving DecidableEq, Repr

/-- The argument shape of `addStation`. -/
structure StationInput where
  name : String
  url : String
  favicon : Option String := none
  tags : Option String := none
deriving DecidableEq, Repr

/-- Embeds `addStation`: `INSERT INTO stations (name, url, favicon, tags) VALUES (?,?,?,?)`
— a plain insert with a fresh surrogate key. -/
def addStation (s : DbState) (station : StationInput) : DbState :=
  { s with
    stations := s.stations ++
      [⟨s.nextStationId, station.name, station.url, station.favicon, station.tags⟩]
    nextStationId := s.nextStationId + 1 }

/-- The payload of a stations row, i.e. the row minus its surrogate key. -/
def rowPayload (r : StationRow) : StationInput :=
  ⟨r.name, r.url, r.favicon, r.tags⟩

/-- Embeds `toggleFavorite`: if a favorites row for the station id exists, delete the
rows for that id; otherwise insert one. -/
def toggleFavorite (s : DbState) (stationId : Int) : DbState :=
  if s.favorites.any (fun r => r.station_id = stationId) then
    { s with favorites := s.favorites.filter (fun r => r.station_id ≠ stationId) }
  else
    { s with favorites := s.favorites ++ [⟨s.nextFavoriteId, stationId⟩]
             nextFavoriteId := s.nextFavoriteId + 1 }

/-- Whether the station id currently has a favorites row. -/
def isFavorite (s : DbState) (stationId : Int) : Bool :=
  s.favorites.any (fun r => r.station_id = stationId)

/-- Number of favorites rows for a station id. -/
def favCount (s : DbState) (stationId : Int) : Nat :=
  (s.favorites.filter (fun r => r.station_id = stationId)).length

/-- The at-most-one-favorite-row-per-station invariant. -/
def FavInv (s : DbState) : Prop :=
  ∀ stationId : Int, favCount s stationId ≤ 1

/-! ## Stations API route (`app/api/stations/route.ts`) -/

/-- An upstream Radio Browser record as typed in the route. -/
structure RadioBrowserStation where
  name : String
  url : String
  favicon : String
  tags : String
  stationuuid : String
  url_resolved : Option String := none
  codec : Option String := none
  votes : Option Int := none
  clickcount : Option Int := none
deriving DecidableEq, Repr

/-- The canonical station shape the route returns to the UI. -/
structure ApiStation where
  id : String
  name : String
  url : String
  favicon : String
  tags : String
deriving DecidableEq, Repr

/-- The filter-and-map pipeline of `fetchRadioBrowserStations`: drop records
whose `url` or `name` is falsy or whose trimmed name is empty, then map to the
canonical shape (`url_resolved || url` picks the resolved URL when truthy). -/
def mapUpstreamStations (stations : List RadioBrowserStation) : List ApiStation :=
  (stations.filter fun station =>
      station.url != "" && station.name != "" && jsTrim station.name.data != []).map
    fun station =>
      { id := station.stationuuid
        name := String.mk (jsTrim station.name.data)
        url :=
          match station.url_resolved with
          | some r => if r = "" then station.url else r
          | none => station.url
        favicon := station.favicon
        tags := station.tags }

/-- The module-level mirror cache (`cachedServers`, `lastServerFetch`). -/
structure ServerCache where
  cachedServers : List String := []
  lastServerFetch : Int := 0
deriving DecidableEq, Repr

/-- Outcome of the DNS SRV lookup for `_api._tcp.radio-browser.info`
(already projected to the record names, as the code does with `.map`). -/
inductive SrvResult where
  | ok (names : List String)
  | err
deriving DecidableEq, Repr

/-- The hard-coded fallback mirror list used when the DNS lookup fails. -/
def fallbackServers : List String :=
  ["de1.api.radio-browser.info", "nl1.api.radio-browser.info", "at1.api.radio-browser.info"]

/-- Embeds `ONE_HOUR` from `getRadioBrowserServers` (milliseconds). -/
def ONE_HOUR : Int := 3600000

/-- The cache-freshness guard of `getRadioBrowserServers`. -/
def cacheFresh (cache : ServerCache) (now : Int) : Bool :=
  cache.cachedServers.length > 0 && (now - cache.lastServerFetch) < ONE_HOUR

/-- Embeds `getRadioBrowserServers`: return the cached list while fresh; otherwise do
the SRV lookup, caching its names on success and returning the static fallback
list (without caching) on failure. -/
def getRadioBrowserServers (cache : ServerCache) (now : Int) (srv : SrvResult) :
    List String × ServerCache :=
  if cacheFresh cache now then
    (cache.cachedServers, cache)
  else
    match srv with
    | .ok names => (names, ⟨names, now⟩)
    | .err => (fallbackServers, cache)

/-- Outcome of the upstream search request inside `fetchRadioBrowserStations`:
the fetch may reject, the response may have a non-OK status (the code throws
and catches it), the JSON parse may reject, or a station array is parsed. -/
inductive FetchOutcome where
  | networkError
  | badStatus
  | parseFailure
  | parsed (stations : List RadioBrowserStation)
deriving DecidableEq, Repr

/-- Result of one `fetchRadioBrowserStations` call: the mirror hostname placed
into the request URL (`servers[Math.floor(Math.random()*servers.length)]`,
`none` models the out-of-range `undefined`), the returned stations, and the
mirror cache afterwards. -/
structure FetchResult where
  requestedServer : Option String
  stations : List ApiStation
  cacheAfter : ServerCache
deriving DecidableEq, Repr

/-- Embeds `fetchRadioBrowserStations`: resolve the mirrors, pick one, issue the
search request; each failure path lands in the `catch` and returns `[]`,
a parsed body goes through the filter-and-map pipeline. -/
def fetchRadioBrowserStations (cache : ServerCache) (now : Int) (srv : SrvResult)
    (pick : Nat) (outcome : FetchOutcome) : FetchResult :=
  let (servers, cache1) := getRadioBrowserServers cache now srv
  let server := servers.get? pick
  let stations :=
    match outcome with
    | .parsed upstream => mapUpstreamStations upstream
    | _ => []
  ⟨server, stations, cache1⟩

/-- Models `parseInt` (radix 10): skip leading whitespace, optional sign, then
the maximal run of leading decimal digits; `none` models `NaN`. -/
def parseDigits (l : List Char) : Option Nat :=
  let ds := l.takeWhile Char.isDigit
  if ds = [] then none
  else some (ds.foldl (fun acc c => acc * 10 + (c.toNat - 48)) 0)

/-- Embeds `parseInt(s)` for the decimal inputs the route receives. -/
def jsParseInt (s : String) : Option Int :=
  match s.data.dropWhile isWS with
  | '-' :: rest => (parseDigits rest).map (fun n => -(n : Int))
  | '+' :: rest => (parseDigits rest).map (fun n => (n : Int))
  | l => (parseDigits l).map (fun n => (n : Int))

/-- Models `searchParams.get(k) || dflt`: `null` and the empty string both
fall back to the default. -/
def jsOr (o : Option String) (dflt : String) : String :=
  match o with
  | some s => if s = "" then dflt else s
  | none => dflt

/-- JavaScript `===` between a number and a possibly-NaN number
(`none` models `NaN`, which compares unequal to everything). -/
def jsNumEq (n : Nat) (m : Option Int) : Bool :=
  match m with
  | some v => (n : Int) = v
  | none => false

/-- The query parameters the `GET` handler reads. -/
structure QueryParams where
  page : Option String := none
  limit : Option String := none
  search : Option String := none
  action : Option String := none
  stationId : Option String := none
deriving DecidableEq, Repr

/-- The guard `action === 'click' && stationId` (a `null` or empty
`stationId` is falsy). -/
def clickRequested (params : QueryParams) : Bool :=
  params.action = some "click" &&
    (match params.stationId with
     | some s => s ≠ ""
     | none => false)

/-- The JSON bodies the `GET` handler can respond with. -/
inductive ApiResponse where
  | stationsBody (stations : List ApiStation) (page : Option Int)
      (limit : Option Int) (more : Bool)
  | clickBody
  | errorBody (status : Nat)
deriving DecidableEq, Repr

/-- The `GET` handler: parse `page`/`limit` (defaults `'1'`/`'100'`), serve the
click-tracking branch when requested (always `{ success: true }`), otherwise
run the station search and answer `{ stations, page, limit, hasMore }` with
`hasMore: stations.length === limit`. -/
def GET (params : QueryParams) (cache : ServerCache) (now : Int) (srv : SrvResult)
    (pick : Nat) (outcome : FetchOutcome) : ApiResponse :=
  let page := jsParseInt (jsOr params.page "1")
  let limit := jsParseInt (jsOr params.limit "100")
  if clickRequested params then
    .clickBody
  else
    let result := fetchRadioBrowserStations cache now srv pick outcome
    .stationsBody result.stations page limit (jsNumEq result.stations.length limit)

/-- The station list of a response, when it is a station-search response. -/
def responseStations : ApiResponse → Option (List ApiStation)
  | .stationsBody stations _ _ _ => some stations
  | _ => none

/-- The `hasMore` flag of a response, when it is a station-search response. -/
def responseHasMore : ApiResponse → Option Bool
  | .stationsBody _ _ _ more => some more
  | _ => none

/-- Whether a response is success-shaped (no `{ error }` body / error status). -/
def isSuccessShaped : ApiResponse → Bool
  | .errorBody _ => false
  | _ => true

/-! ## Theorems -/

/-- C1: every station record returned by the stations API mapping has a
non-empty `name` and a non-empty `url`: records missing a usable name or URL
are dropped by the filter, the kept ones get a trimmed non-empty name and a
non-empty URL (`url_resolved || url`). -/
theorem returned_stations_have_nonempty_name_and_url
    (upstream : List RadioBrowserStation) (st : ApiStation)
    (hmem : st ∈ mapUpstreamStations upstream) :
    st.name ≠ "" ∧ st.url ≠ "" := by
  simp only [mapUpstreamStations, List.mem_map, List.mem_filter] at hmem
  obtain ⟨u, ⟨_, hcond⟩, rfl⟩ := hmem
  simp only [Bool.and_eq_true, bne_iff_ne, ne_eq] at hcond
  obtain ⟨⟨hurl, -⟩, htrim⟩ := hcond
  refine ⟨?_, ?_⟩
  · intro h
    apply htrim
    simpa using congrArg String.data h
  · cases hres : u.url_resolved with
    | none => simpa [hres] using hurl
    | some r =>
      by_cases hr : r = "" <;> simp [hres, hr]
      assumption

/-- Witness for C1 at a concrete upstream record. -/
theorem returned_stations_have_nonempty_name_and_url_witness :
    (⟨"u1", "BBC", "http://bbc.example/s", "", ""⟩ : ApiStation) ∈
        mapUpstreamStations [⟨" BBC ", "http://bbc.example/s", "", "", "u1", none, none, none, none⟩] ∧
      (⟨"u1", "BBC", "http://bbc.example/s", "", ""⟩ : ApiStation).name ≠ "" ∧
      (⟨"u1", "BBC", "http://bbc.example/s", "", ""⟩ : ApiStation).url ≠ "" :=
  ⟨by decide, returned_stations_have_nonempty_name_and_url
    [⟨" BBC ", "http://bbc.example/s", "", "", "u1", none, none, none, none⟩]
    ⟨"u1", "BBC", "http://bbc.example/s", "", ""⟩ (by decide)⟩

/-- C5: every network or parsing failure in the station search yields `[]`
(the `catch` branch), and the HTTP handler still answers with a success-shaped
stations body containing the empty list. -/
theorem search_failure_degrades_to_empty :
    ∀ (cache : ServerCache) (now : Int) (srv : SrvResult) (pick : Nat)
      (params : QueryParams) (outcome : FetchOutcome),
      (outcome = .networkError ∨ outcome = .badStatus ∨ outcome = .parseFailure) →
        (fetchRadioBrowserStations cache now srv pick outcome).stations = [] ∧
        (clickRequested params = false →
          responseStations (GET params cache now srv pick outcome) = some [] ∧
          isSuccessShaped (GET params cache now srv pick outcome) = true) := by
  intro cache now srv pick params outcome houtcome
  have hstations : (fetchRadioBrowserStations cache now srv pick outcome).stations = [] := by
    rcases houtcome with rfl | rfl | rfl <;> rfl
  refine ⟨hstations, fun hclick => ?_⟩
  simp [GET, hclick, responseStations, isSuccessShaped, hstations]

/-- Witness for C5 at a concrete failing request. -/
theorem search_failure_degrades_to_empty_witness :
    ((FetchOutcome.networkError = .networkError ∨ FetchOutcome.networkError = .badStatus ∨
        FetchOutcome.networkError = .parseFailure) ∧
      (fetchRadioBrowserStations {} 0 .err 0 .networkError).stations = [] ∧
      (clickRequested {} = false →
        responseStations (GET {} {} 0 .err 0 .networkError) = some [] ∧
        isSuccessShaped (GET {} {} 0 .err 0 .networkError) = true)) :=
  ⟨Or.inl rfl, search_failure_degrades_to_empty {} 0 .err 0 {} .networkError (Or.inl rfl)⟩

/-- A sample station input for the store counterexample. -/
def sampleStation : StationInput :=
  ⟨"BBC Radio", "http://bbc.example/stream", none, none⟩

/-- C9 counterexample: `addStation` is a plain `INSERT`; calling it twice with
the same station leaves the table with two payload-identical rows, so the
table after two calls is not equal (even up to surrogate keys) to the table
after one call. -/
theorem upsert_station_not_idempotent :
    ¬ ((addStation (addStation {} sampleStation) sampleStation).stations.map rowPayload =
        (addStation {} sampleStation).stations.map rowPayload) := by
  decide

/-- C9 amended: `addStation` always appends a fresh row carrying the given
payload; two calls with the same station append two payload-identical rows
(duplicate payloads are created; the insert is not idempotent). -/
theorem add_station_always_appends :
    ∀ (s : DbState) (station : StationInput),
      (addStation s station).stations.map rowPayload =
        s.stations.map rowPayload ++ [station] ∧
      (addStation (addStation s station) station).stations.map rowPayload =
        s.stations.map rowPayload ++ [station, station] := by
  intro s station
  simp [addStation, rowPayload]

/-- C8: mirror resolution is total — its result is the cached list, the
freshly looked-up names, or the static fallback; when the lookup is actually
performed (empty or stale cache) and fails, the result is the fixed
three-hostname fallback list, which is non-empty, so the subsequent search
still addresses its request to one of these hostnames. -/
theorem mirror_resolution_never_fails :
    ∀ (cache : ServerCache) (now : Int),
      (∀ srv, (getRadioBrowserServers cache now srv).1 = cache.cachedServers ∨
        (∃ names, srv = .ok names ∧ (getRadioBrowserServers cache now srv).1 = names) ∨
        (getRadioBrowserServers cache now srv).1 = fallbackServers) ∧
      (cacheFresh cache now = false →
        (getRadioBrowserServers cache now .err).1 = fallbackServers ∧
        fallbackServers.length = 3 ∧
        fallbackServers ≠ [] ∧
        (∀ (pick : Nat) (outcome : FetchOutcome), pick < fallbackServers.length →
          ∃ host, (fetchRadioBrowserStations cache now .err pick outcome).requestedServer =
              some host ∧ host ∈ fallbackServers)) := by
  intro cache now
  constructor
  · intro srv
    by_cases hfresh : cacheFresh cache now = true
    · left
      simp [getRadioBrowserServers, hfresh]
    · cases srv with
      | ok names =>
        right; left
        exact ⟨names, rfl, by simp [getRadioBrowserServers, hfresh]⟩
      | err =>
        right; right
        simp [getRadioBrowserServers, hfresh]
  · intro hfresh
    refine ⟨by simp [getRadioBrowserServers, hfresh], by decide, by decide, ?_⟩
    intro pick outcome hpick
    refine ⟨fallbackServers.get ⟨pick, hpick⟩, ?_, List.get_mem _ _ _⟩
    simp only [fetchRadioBrowserStations, getRadioBrowserServers, hfresh]
    simp

/-- Witness for C8 with an empty (hence stale) cache. -/
theorem mirror_resolution_never_fails_witness :
    cacheFresh {} 0 = false ∧ (getRadioBrowserServers {} 0 .err).1 = fallbackServers :=
  ⟨by decide, ((mirror_resolution_never_fails {} 0).2 (by decide)).1⟩

/-- C7: when the `limit` parameter parses to `l`, the search response's
`hasMore` flag is `true` iff the number of returned stations equals `l`;
in particular a short page (fewer than `l` stations) forces `hasMore = false`. -/
theorem has_more_iff_full_page :
    ∀ (params : QueryParams) (cache : ServerCache) (now : Int) (srv : SrvResult)
      (pick : Nat) (outcome : FetchOutcome) (l : Int) (stations : List ApiStation),
      clickRequested params = false →
      jsParseInt (jsOr params.limit "100") = some l →
      responseStations (GET params cache now srv pick outcome) = some stations →
      (responseHasMore (GET params cache now srv pick outcome) = some true ↔
        (stations.length : Int) = l) ∧
      ((stations.length : Int) < l →
        responseHasMore (GET params cache now srv pick outcome) = some false) := by
  intro params cache now srv pick outcome l stations hclick hlimit hstations
  have hS : (fetchRadioBrowserStations cache now srv pick outcome).stations = stations := by
    simp [GET, hclick, responseStations] at hstations
    exact hstations
  constructor
  · simp [GET, hclick, responseHasMore, hlimit, jsNumEq, hS]
  · intro hlt
    simp [GET, hclick, responseHasMore, hlimit, jsNumEq, hS]
    exact ne_of_lt hlt

/-- A well-formed upstream record used by the route witnesses. -/
def upSample : RadioBrowserStation :=
  ⟨"Jazz24", "http://jazz.example/stream", "", "jazz", "u-jazz", none, none, none, none⟩

/-- The canonical station `upSample` maps to. -/
def mappedSample : ApiStation :=
  ⟨"u-jazz", "Jazz24", "http://jazz.example/stream", "", "jazz"⟩

/-- Witness for C7: limit 2, one returned station, so `hasMore` is `false`. -/
theorem has_more_iff_full_page_witness :
    clickRequested ⟨none, some "2", none, none, none⟩ = false ∧
      jsParseInt (jsOr (some "2") "100") = some 2 ∧
      responseStations
          (GET ⟨none, some "2", none, none, none⟩ {} 0 .err 0 (.parsed [upSample])) =
        some [mappedSample] ∧
      responseHasMore
          (GET ⟨none, some "2", none, none, none⟩ {} 0 .err 0 (.parsed [upSample])) =
        some false :=
  ⟨by decide, by decide, by decide,
    (has_more_iff_full_page ⟨none, some "2", none, none, none⟩ {} 0 .err 0
        (.parsed [upSample]) 2 [mappedSample] (by decide) (by decide) (by decide)).2
      (by decide)⟩

/-- C10: a non-empty committed query bypasses pagination — the displayed list
is the entire filtered result set whatever the page counter, and `hasMore` is
`false`; the empty committed query makes the filter yield the full unfiltered
station list (which the display then paginates). -/
theorem search_bypasses_pagination :
    (∀ (stations : List RadioStation) (q : String) (page : Nat), q ≠ "" →
      displayedStations stations q page = filteredStations stations q ∧
      hasMore stations q page = false) ∧
    (∀ stations : List RadioStation, filteredStations stations "" = stations) ∧
    (∀ (stations : List RadioStation) (page : Nat),
      displayedStations stations "" page = stations.take (page * STATIONS_PER_PAGE)) := by
  refine ⟨fun stations q page hq => ⟨?_, ?_⟩, fun stations => ?_, fun stations page => ?_⟩
  · simp [displayedStations, hq]
  · simp [hasMore, hq]
  · simp [filteredStations]
  · simp [displayedStations, filteredStations]

/-- Witness for C10 with a one-station list and the query `"jazz"`. -/
theorem search_bypasses_pagination_witness :
    ("jazz" : String) ≠ "" ∧
      displayedStations [⟨"s1", "Jazz FM", "u", none, none⟩] "jazz" 5 =
        filteredStations [⟨"s1", "Jazz FM", "u", none, none⟩] "jazz" ∧
      hasMore [⟨"s1", "Jazz FM", "u", none, none⟩] "jazz" 5 = false :=
  ⟨by decide,
    (search_bypasses_pagination.1 [⟨"s1", "Jazz FM", "u", none, none⟩] "jazz" 5 (by decide)).1,
    (search_bypasses_pagination.1 [⟨"s1", "Jazz FM", "u", none, none⟩] "jazz" 5 (by decide)).2⟩

/-- Sample stations for the client-filter claims. -/
def cafeStation : RadioStation := ⟨"c1", "Cafe Radio", "http://cafe.example", none, none⟩

/-- A station whose name carries the diacritic. -/
def cafeAccentStation : RadioStation := ⟨"c2", "Café Radio", "http://cafe2.example", none, none⟩

/-- A station matching the query `"jazz"` only through its name. -/
def jazzStation : RadioStation := ⟨"j1", "Smooth Jazz FM", "http://jazz.example", none, none⟩

/-- A station with `"rock"` in its tags and `"london"` nowhere. -/
def rockOnlyStation : RadioStation :=
  ⟨"r1", "Breakfast Show", "http://rock.example", none, some "rock"⟩

/-- A station with `"rock"` in its tags and `"london"` in its name. -/
def rockLondonStation : RadioStation :=
  ⟨"r2", "London Calling", "http://rl.example", none, some "rock,indie"⟩

/-- C2: for a non-empty committed query, a station is kept by the client-side
filter iff every whitespace-separated term of the normalized query is a
substring of its normalized name or its normalized tags (conjunctive match);
normalization is case- and diacritic-insensitive, witnessed by `"café"`
matching `"Cafe Radio"`, `"cafe"` matching `"Café Radio"`, `"Jazz"` matching
`"Smooth Jazz FM"`, and `"rock london"` matching only the station carrying
both terms. -/
theorem client_filter_conjunctive_normalized :
    (∀ (stations : List RadioStation) (q : String) (st : RadioStation), q ≠ "" →
      (st ∈ filteredStations stations q ↔
        st ∈ stations ∧
          ∀ term ∈ splitWS (normalizeText q.data),
            (isSubstr term (normalizeText st.name.data) = true ∨
             isSubstr term (normalizeText (st.tags.getD "").data) = true))) ∧
    cafeStation ∈ filteredStations [cafeStation] "café" ∧
    cafeAccentStation ∈ filteredStations [cafeAccentStation] "cafe" ∧
    jazzStation ∈ filteredStations [jazzStation] "Jazz" ∧
    rockLondonStation ∈ filteredStations [rockOnlyStation, rockLondonStation] "rock london" ∧
    rockOnlyStation ∉ filteredStations [rockOnlyStation, rockLondonStation] "rock london" := by
  refine ⟨?_, by decide, by decide, by decide, by decide, by decide⟩
  intro stations q st hq
  rw [filteredStations, if_neg hq, List.mem_filter]
  apply and_congr_right
  intro _
  simp only [stationMatches, List.all_eq_true, Bool.or_eq_true]
  cases htags : st.tags with
  | none => simp [htags, show normalizeText ("" : String).data = [] from rfl]
  | some t => simp [htags]

/-- Witness for C2 instantiated at the jazz example. -/
theorem client_filter_conjunctive_normalized_witness :
    ("jazz" : String) ≠ "" ∧
      (jazzStation ∈ filteredStations [jazzStation] "jazz" ↔
        jazzStation ∈ [jazzStation] ∧
          ∀ term ∈ splitWS (normalizeText ("jazz" : String).data),
            (isSubstr term (normalizeText jazzStation.name.data) = true ∨
             isSubstr term (normalizeText (jazzStation.tags.getD "").data) = true)) :=
  ⟨by decide,
    client_filter_conjunctive_normalized.1 [jazzStation] "jazz" jazzStation (by decide)⟩

/-- Toggling the favorite of a station flips its favorited status. -/
theorem isFavorite_toggle_self (s : DbState) (stationId : Int) :
    isFavorite (toggleFavorite s stationId) stationId = !(isFavorite s stationId) := by
  unfold toggleFavorite isFavorite
  by_cases h : s.favorites.any (fun r => r.station_id = stationId) = true
  · simp only [h, if_true, Bool.not_true]
    rw [List.any_eq_false]
    intro r hr
    rcases List.mem_filter.mp hr with ⟨-, hne⟩
    simpa using hne
  · rw [if_neg]
    · simp [List.any_append, h]
    · simpa using h

/-- Toggling one station's favorite leaves every other station's status alone. -/
theorem isFavorite_toggle_other (s : DbState) (stationId otherId : Int)
    (hne : otherId ≠ stationId) :
    isFavorite (toggleFavorite s stationId) otherId = isFavorite s otherId := by
  unfold toggleFavorite isFavorite
  by_cases h : s.favorites.any (fun r => r.station_id = stationId) = true
  · simp only [h, if_true]
    rw [Bool.eq_iff_iff]
    simp only [List.any_eq_true, List.mem_filter, decide_eq_true_eq]
    constructor
    · rintro ⟨r, ⟨hr, -⟩, hid⟩
      exact ⟨r, hr, hid⟩
    · rintro ⟨r, hr, hid⟩
      refine ⟨r, ⟨hr, ?_⟩, hid⟩
      simp [hid, hne]
  · rw [if_neg]
    · simp [List.any_append, Ne.symm hne]
    · simpa using h

/-- A single toggle preserves the at-most-one-favorite-row invariant. -/
theorem favInv_toggle (s : DbState) (stationId : Int) (hinv : FavInv s) :
    FavInv (toggleFavorite s stationId) := by
  intro otherId
  unfold toggleFavorite
  by_cases h : s.favorites.any (fun r => r.station_id = stationId) = true
  · simp only [h, if_true]
    have hsub : ((s.favorites.filter (fun r => r.station_id ≠ stationId)).filter
        (fun r => r.station_id = otherId)).Sublist
        (s.favorites.filter (fun r => r.station_id = otherId)) :=
      List.Sublist.filter _ (List.filter_sublist s.favorites)
    exact le_trans hsub.length_le (hinv otherId)
  · rw [if_neg]
    · show ((s.favorites ++ [(⟨s.nextFavoriteId, stationId⟩ : FavoriteRow)]).filter
          (fun r : FavoriteRow => r.station_id = otherId)).length ≤ 1
      rw [List.filter_append, List.length_append]
      by_cases hid : otherId = stationId
      · subst hid
        have hnil : s.favorites.filter (fun r => r.station_id = otherId) = [] := by
          rw [List.filter_eq_nil_iff]
          intro r hr
          have := (List.any_eq_false.mp (Bool.eq_false_iff.mpr h)) r hr
          simpa using this
        simp [hnil]
      · have hone : ([(⟨s.nextFavoriteId, stationId⟩ : FavoriteRow)].filter
            (fun r => r.station_id = otherId)).length = 0 := by
          simp [List.filter, Ne.symm hid]
        rw [hone]
        simpa using hinv otherId
    · simpa using h

/-- C6: starting from a favorites table with at most one row per station,
toggling a station id twice restores every station's favorited status, and a
single toggle preserves the at-most-one-row-per-station invariant. -/
theorem toggle_favorite_pair_restores :
    ∀ (s : DbState) (stationId : Int), FavInv s →
      (∀ otherId : Int,
        isFavorite (toggleFavorite (toggleFavorite s stationId) stationId) otherId =
          isFavorite s otherId) ∧
      FavInv (toggleFavorite s stationId) := by
  intro s stationId hinv
  refine ⟨fun otherId => ?_, favInv_toggle s stationId hinv⟩
  by_cases h : otherId = stationId
  · subst h
    rw [isFavorite_toggle_self, isFavorite_toggle_self, Bool.not_not]
  · rw [isFavorite_toggle_other _ _ _ h, isFavorite_toggle_other _ _ _ h]

/-- Witness for C6 on a table with one favorited station. -/
theorem toggle_favorite_pair_restores_witness :
    FavInv ⟨[], [⟨1, 7⟩], 1, 2⟩ ∧
      (isFavorite (toggleFavorite (toggleFavorite ⟨[], [⟨1, 7⟩], 1, 2⟩ 7) 7) 7 =
        isFavorite ⟨[], [⟨1, 7⟩], 1, 2⟩ 7) :=
  have hinv : FavInv ⟨[], [⟨1, 7⟩], 1, 2⟩ := by
    intro otherId
    exact le_trans (List.length_filter_le _ _) (by simp)
  ⟨hinv, (toggle_favorite_pair_restores ⟨[], [⟨1, 7⟩], 1, 2⟩ 7 hinv).1 7⟩

/-- C3: with the controller's reachability invariant, at most one audio
session is ever active; `play` on the now-playing station stops playback and
clears now-playing; `play` on a different station unloads the old session
strictly before the new one starts (visible in the event trace) and leaves
exactly one active session, bound to the new station; both operations
preserve the invariant. -/
theorem playback_single_active_session :
    ∀ (s : PlayerState) (st : RadioStation) (clickOk loadOk : Bool),
      PlayerInv s →
        s.activeSessions.length ≤ 1 ∧
        PlayerInv (stopPlaying s).1 ∧
        PlayerInv (playStation s st clickOk loadOk).1 ∧
        (playStation s st clickOk loadOk).1.activeSessions.length ≤ 1 ∧
        (s.currentStation.map RadioStation.id = some st.id →
          (playStation s st clickOk loadOk).1.currentStation = none ∧
          (playStation s st clickOk loadOk).1.activeSessions = []) ∧
        (s.currentStation.map RadioStation.id ≠ some st.id →
          (playStation s st clickOk loadOk).1.activeSessions = [s.nextSession] ∧
          (playStation s st clickOk loadOk).1.player = some s.nextSession ∧
          (loadOk = true →
            (playStation s st clickOk loadOk).1.currentStation = some st) ∧
          (∀ p, s.player = some p →
            (playStation s st clickOk loadOk).2 =
              [.unloadSession p, .awaitClickReport st.id clickOk,
               .startSession s.nextSession st.url])) := by
  intro s st clickOk loadOk hinv
  obtain ⟨hcp, hact⟩ := hinv
  have hactive : s.activeSessions = [] ∨
      ∃ p, s.player = some p ∧ s.activeSessions = [p] := by
    cases hp : s.player with
    | none => left; simpa [hp] using hact
    | some p =>
      simp only [hp] at hact
      rcases hact with h1 | h1
      · left; exact h1
      · right; exact ⟨p, rfl, h1⟩
  have hlen : s.activeSessions.length ≤ 1 := by
    rcases hactive with h1 | ⟨p, -, h1⟩ <;> simp [h1]
  have hstopInv : PlayerInv (stopPlaying s).1 := by
    cases hp : s.player with
    | none =>
      have : (stopPlaying s).1 = s := by simp [stopPlaying, hp]
      rw [this]
      refine ⟨hcp, ?_⟩
      simpa [hp] using hact
    | some p =>
      refine ⟨?_, ?_⟩ <;> simp only [stopPlaying, hp]
      · simp
      · rcases hactive with h1 | ⟨q, hq, h1⟩
        · simp [h1]
        · rw [hp] at hq
          cases hq
          simp [h1]
  have hstopActive : s.player.isSome → (stopPlaying s).1.activeSessions = [] := by
    intro hps
    cases hp : s.player with
    | none => simp [hp] at hps
    | some p =>
      simp only [stopPlaying, hp]
      rcases hactive with h1 | ⟨q, hq, h1⟩
      · simp [h1]
      · rw [hp] at hq
        cases hq
        simp [h1]
  by_cases htog : s.currentStation.map RadioStation.id = some st.id
  · have hps : s.player.isSome := by
      apply hcp
      cases hcs : s.currentStation with
      | none => simp [hcs] at htog
      | some c => simp
    have hplay : playStation s st clickOk loadOk = stopPlaying s := by
      simp [playStation, htog]
    refine ⟨hlen, hstopInv, ?_, ?_, fun _ => ⟨?_, ?_⟩, fun hne => absurd htog hne⟩
    · rw [hplay]; exact hstopInv
    · rw [hplay]
      simp [hstopActive hps]
    · rw [hplay]
      cases hp : s.player with
      | none => simp [hp] at hps
      | some p => simp [stopPlaying, hp]
    · rw [hplay]
      exact hstopActive hps
  · have hfilt : ∀ p, s.player = some p → ∀ a ∈ s.activeSessions, a = p := by
      intro p hp a ha
      rcases hactive with h1 | ⟨q, hq, h1⟩
      · rw [h1] at ha
        cases ha
      · rw [hp] at hq
        cases hq
        rw [h1] at ha
        simpa using ha
    have hA : (playStation s st clickOk loadOk).1.activeSessions = [s.nextSession] := by
      cases hp : s.player with
      | none =>
        have h0 : s.activeSessions = [] := by simpa [hp] using hact
        simp [playStation, htog, hp, h0]
      | some p =>
        simp [playStation, htog, hp]
        exact hfilt p hp
    have hP : (playStation s st clickOk loadOk).1.player = some s.nextSession := by
      cases hp : s.player with
      | none => simp [playStation, htog, hp]
      | some p => simp [playStation, htog, hp]
    have hInvRes : PlayerInv (playStation s st clickOk loadOk).1 := by
      constructor
      · intro _
        rw [hP]
        rfl
      · rw [hP]
        exact Or.inr hA
    refine ⟨hlen, hstopInv, hInvRes, by rw [hA]; simp,
      fun heq => absurd heq htog, fun _ => ⟨hA, hP, ?_, ?_⟩⟩
    · intro loadOkTrue
      cases hp : s.player with
      | none => simp [playStation, htog, hp, loadOkTrue]
      | some p => simp [playStation, htog, hp, loadOkTrue]
    · intro p hp
      simp [playStation, htog, hp]

/-- The concrete station A for the playback witness. -/
def stA : RadioStation := ⟨"a1", "Alpha FM", "http://alpha.example/s", none, none⟩

/-- The concrete station B for the playback witness. -/
def stB : RadioStation := ⟨"b1", "Beta FM", "http://beta.example/s", none, none⟩

/-- The controller state after `play(stA)` succeeded from the initial state. -/
def sAfterA : PlayerState := (playStation initPlayerState stA true true).1

/-- Witness for C3: after `play(stA)` then `play(stB)`, exactly station B's
session is active and it is bound to B. -/
theorem playback_single_active_session_witness :
    PlayerInv sAfterA ∧
      sAfterA.currentStation.map RadioStation.id ≠ some stB.id ∧
      (playStation sAfterA stB true true).1.activeSessions = [sAfterA.nextSession] ∧
      (playStation sAfterA stB true true).1.currentStation = some stB :=
  have hinv : PlayerInv sAfterA := ⟨fun _ => rfl, Or.inr rfl⟩
  have hne : sAfterA.currentStation.map RadioStation.id ≠ some stB.id := by decide
  ⟨hinv, hne,
    ((playback_single_active_session sAfterA stB true true hinv).2.2.2.2.2 hne).1,
    ((playback_single_active_session sAfterA stB true true hinv).2.2.2.2.2 hne).2.2.1 rfl⟩

/-- The concrete station used in the click-report counterexample. -/
def stSample : RadioStation := ⟨"s1", "Sample FM", "http://sample.example/s", none, none⟩

/-- C4 counterexample: in the trace of `play` on a non-active station, the
awaited click report occurs strictly before the session start — the playback
start path does wait for the click-report fetch to settle, contradicting the
claim that it never delays the session start. -/
theorem click_report_is_awaited :
    clickAwaitedBeforeStart (playStation initPlayerState stSample true true).2 = true := by
  decide

/-- C4 amended: the click report's outcome never changes the resulting
playback state (failures are swallowed and the session always starts), but the
report is awaited — the session start is sequenced strictly after the awaited
click-report fetch. -/
theorem click_report_swallowed_but_awaited :
    ∀ (s : PlayerState) (st : RadioStation) (clickOk clickOk2 loadOk : Bool),
      s.currentStation.map RadioStation.id ≠ some st.id →
        (playStation s st clickOk loadOk).1 = (playStation s st clickOk2 loadOk).1 ∧
        (playStation s st clickOk loadOk).2.getLast? =
          some (.startSession s.nextSession st.url) ∧
        clickAwaitedBeforeStart (playStation s st clickOk loadOk).2 = true := by
  intro s st clickOk clickOk2 loadOk htog
  cases hp : s.player with
  | none => simp [playStation, htog, hp, clickAwaitedBeforeStart]
  | some p => simp [playStation, htog, hp, clickAwaitedBeforeStart]

/-- Witness for C4's amended claim at a concrete call. -/
theorem click_report_swallowed_but_awaited_witness :
    initPlayerState.currentStation.map RadioStation.id ≠ some stSample.id ∧
      (playStation initPlayerState stSample true true).1 =
        (playStation initPlayerState stSample false true).1 ∧
      clickAwaitedBeforeStart (playStation initPlayerState stSample true true).2 = true :=
  ⟨by decide,
    (click_report_swallowed_but_awaited initPlayerState stSample true false true
      (by decide)).1,
    (click_report_swallowed_but_awaited initPlayerState stSample true false true
      (by decide)).2.2⟩

end RadioApp
